import Mathlib

/-!
Verification of the xcloud-listener native messaging host
(`src/xcloud-listener/src/main.go`).

Strings and byte slices are modelled as `List Nat` of byte values
(each in `[0, 255]`); the native byte order detected by `Init` is an
explicit `Endian` parameter; stdio is modelled as explicit byte lists.
-/

namespace XCloud

/-- Native byte order, as detected by `Init` via the memory probe.
Every length-header read and write uses the same process-wide value. -/
inductive Endian
  | little
  | big
deriving DecidableEq, Repr

/-- `bufferSize` from main.go: size of the IO buffer handed to
`bufio.NewReaderSize`, and the threshold for the oversize-frame warning. -/
def bufferSize : Nat := 8192

/-- The four little-endian base-256 digits of `n % 2^32`
(what `encoding/binary` produces for a `uint32` in little-endian order). -/
def uint32Bytes (n : Nat) : List Nat :=
  [n % 256, n / 256 % 256, n / 65536 % 256, n / 16777216 % 256]

/-- Model of `binary.Write(w, order, uint32(n))`: the 4 bytes emitted for
the 32-bit value `n % 2^32` in byte order `e`. -/
def putUint32 (e : Endian) (n : Nat) : List Nat :=
  match e with
  | .little => uint32Bytes n
  | .big => (uint32Bytes n).reverse

/-- Model of `binary.Read(buf, order, &length)` for a `uint32` target:
interprets exactly 4 bytes in byte order `e`.  On any other byte count
`binary.Read` errors and the `uint32` target keeps its zero value, which
`readMessageLength` then returns. -/
def getUint32 (e : Endian) (bs : List Nat) : Nat :=
  match e, bs with
  | .little, [b0, b1, b2, b3] => b0 + 256 * b1 + 65536 * b2 + 16777216 * b3
  | .big, [b0, b1, b2, b3] => b3 + 256 * b2 + 65536 * b1 + 16777216 * b0
  | _, _ => 0

/-- `readMessageLength` from main.go: reads the message length value from
the 4 header bytes in native byte order (`int(length)`, never negative). -/
def readMessageLength (e : Endian) (msg : List Nat) : Nat :=
  getUint32 e msg

/-- `writeMessageLength` from main.go: determines the length of `msg` and
writes it to stdout as a `uint32` in native byte order; returns the bytes
written. -/
def writeMessageLength (e : Endian) (msg : List Nat) : List Nat :=
  putUint32 e msg.length

/-- UTF-8 bytes of an ASCII string literal, as a `List Nat`. -/
def strBytes (s : String) : List Nat :=
  s.data.map Char.toNat

/-- `IncomingMessage` from main.go: a message sent to the native host. -/
structure IncomingMessage where
  query : List Nat
deriving DecidableEq, Repr

/-- `OutgoingMessage` from main.go: a response to an incoming message query. -/
structure OutgoingMessage where
  query : List Nat
  response : List Nat
deriving DecidableEq, Repr

/-- Lowercase hex digit byte for `n < 16`, as produced by
`encoding/json`'s `\u00xx` escapes. -/
def hexDigit (n : Nat) : Nat :=
  if n < 10 then 48 + n else 87 + n

/-- Per-byte escaping performed by `encoding/json` when marshalling a
string (HTML escaping on, the default used by `json.Marshal`): quote,
backslash, newline, carriage return and tab get two-byte escapes; the
other control bytes and `<`, `>`, `&` become `\u00xx`; everything else
passes through.  Bytes `>= 0x80` are modelled as pass-through, i.e. the
model covers strings that are valid UTF-8 without U+2028/U+2029. -/
def escapeByte (b : Nat) : List Nat :=
  if b = 34 then [92, 34]
  else if b = 92 then [92, 92]
  else if b = 10 then [92, 110]
  else if b = 13 then [92, 114]
  else if b = 9 then [92, 116]
  else if b < 32 ∨ b = 60 ∨ b = 62 ∨ b = 38 then
    [92, 117, 48, 48, hexDigit (b / 16), hexDigit (b % 16)]
  else [b]

/-- JSON encoding of a string value: a double quote, the escaped bytes,
a closing double quote. -/
def jsonEncodeString (s : List Nat) : List Nat :=
  34 :: (s.map escapeByte).flatten ++ [34]

/-- Model of `json.Marshal` applied to a string value.  Marshalling a Go
string never returns an error (invalid UTF-8 is replaced, not rejected),
so the error alternative of the `(bytes, err)` pair is never taken. -/
def jsonMarshalString (s : List Nat) : Option (List Nat) :=
  some (jsonEncodeString s)

/-- `msgTextToBytes` from main.go: marshals the message text to bytes;
on a marshal error it would log and return the `nil` slice. -/
def msgTextToBytes (msgText : List Nat) : List Nat :=
  match jsonMarshalString msgText with
  | some byteMsg => byteMsg
  | none => []

/-- `dataToBytes` from main.go: marshals the full `OutgoingMessage`
struct (the `{"query":...,"response":...}` object) to bytes.  Present in
the source but never called by `send`. -/
def dataToBytes (msg : OutgoingMessage) : List Nat :=
  [123] ++ strBytes "\"query\":" ++ jsonEncodeString msg.query
    ++ [44] ++ strBytes "\"response\":" ++ jsonEncodeString msg.response
    ++ [125]

/-- `send` from main.go: writes the length header for the JSON encoding
of `msg.Response`, then the encoded bytes, to stdout; the returned list
is everything written to stdout. -/
def send (e : Endian) (msg : OutgoingMessage) : List Nat :=
  let byteMsg := msgTextToBytes msg.response
  writeMessageLength e byteMsg ++ byteMsg

/-- JSON whitespace bytes (space, tab, newline, carriage return). -/
def isWS (b : Nat) : Bool :=
  b = 32 || b = 9 || b = 10 || b = 13

/-- Drop leading JSON whitespace. -/
def skipWS : List Nat → List Nat
  | [] => []
  | b :: rest => if isWS b then skipWS rest else b :: rest

/-- Decode a single-character JSON string escape (`\"`, `\\`, `\/`,
`\b`, `\f`, `\n`, `\r`, `\t`). -/
def escDecode (b : Nat) : Option Nat :=
  if b = 34 then some 34
  else if b = 92 then some 92
  else if b = 47 then some 47
  else if b = 98 then some 8
  else if b = 102 then some 12
  else if b = 110 then some 10
  else if b = 114 then some 13
  else if b = 116 then some 9
  else none

/-- Parse the body of a JSON string up to and including the closing
quote, returning the decoded bytes and the rest of the input. -/
def parseStringBody : List Nat → Option (List Nat × List Nat)
  | [] => none
  | b :: rest =>
    if b = 34 then some ([], rest)
    else if b = 92 then
      match rest with
      | [] => none
      | c :: rest₂ =>
        match escDecode c with
        | none => none
        | some d =>
          match parseStringBody rest₂ with
          | none => none
          | some (s, r) => some (d :: s, r)
    else if b < 32 then none
    else
      match parseStringBody rest with
      | none => none
      | some (s, r) => some (b :: s, r)

/-- Model of `json.Unmarshal(msg, &IncomingMessage)` restricted to the
envelope this host exchanges: an object whose single field is `"query"`
with a string value (JSON whitespace allowed, basic string escapes
supported; `\u` escapes and extra fields are outside the model and
rejected).  Returns the query string on success, `none` on a decode
error — in which case `Unmarshal` leaves the struct at its zero value. -/
def parseEnvelope (bs : List Nat) : Option (List Nat) :=
  match skipWS bs with
  | 123 :: rest =>
    match skipWS rest with
    | 34 :: rest₂ =>
      match parseStringBody rest₂ with
      | some (key, rest₃) =>
        if key = strBytes "query" then
          match skipWS rest₃ with
          | 58 :: rest₄ =>
            match skipWS rest₄ with
            | 34 :: rest₅ =>
              match parseStringBody rest₅ with
              | some (val, rest₆) =>
                match skipWS rest₆ with
                | 125 :: rest₇ =>
                  if skipWS rest₇ = [] then some val else none
                | _ => none
              | none => none
            | _ => none
          | _ => none
        else none
      | none => none
    | _ => none
  | _ => none

/-- `decodeMessage` from main.go: unmarshals the incoming JSON request;
on an unmarshal error it logs and returns the zero-valued struct
(empty query). -/
def decodeMessage (msg : List Nat) : IncomingMessage :=
  match parseEnvelope msg with
  | some q => { query := q }
  | none => { query := [] }

/-- The query → response switch inside `parseMessage`:
`"ping" → "pong"`, `"hello" → "goodbye"`, default `"42"`. -/
def queryResponse (q : List Nat) : List Nat :=
  if q = strBytes "ping" then strBytes "pong"
  else if q = strBytes "hello" then strBytes "goodbye"
  else strBytes "42"

/-- `parseMessage` from main.go: decodes the incoming message, builds the
outgoing message via the query switch, and sends it; the returned list
is the frame written to stdout. -/
def parseMessage (e : Endian) (msg : List Nat) : List Nat :=
  let iMsg := decodeMessage msg
  let oMsg : OutgoingMessage :=
    { query := iMsg.query, response := queryResponse iMsg.query }
  send e oMsg

/-- `performAction` from main.go: an empty action string is a logged
no-op; otherwise an echo `OutgoingMessage` (query = response = action)
is sent.  The returned list is the bytes written to stdout. -/
def performAction (e : Endian) (action : List Nat) : List Nat :=
  if action = [] then []
  else send e { query := action, response := action }

/-- `actionEndpoint` from main.go: reads the whole request body and
hands it verbatim to `performAction` (a body read error would abort
before sending; the body itself is the model's input). -/
def actionEndpoint (e : Endian) (reqBody : List Nat) : List Nat :=
  performAction e reqBody

/-- State of the buffered stdin reader built in `read`:
`buf` is the content currently buffered by the `bufio.Reader` of size
`bufferSize`, `stream` the bytes not yet pulled from stdin.  The whole
input is modelled as already available on stdin, so every underlying
read returns as many bytes as requested or as remain. -/
structure RState where
  buf : List Nat
  stream : List Nat
deriving DecidableEq, Repr

/-- One `s.Read(p)` call on the buffered reader (`bufio.Reader.Read`
semantics): a request for `0` bytes returns immediately; with an empty
buffer and empty stream it reports EOF; a request of at least the buffer
size bypasses the buffer and reads directly; otherwise the buffer is
filled with one underlying read (up to `bufferSize` bytes) and at most
one buffered chunk is copied out.  Returns the bytes read, the new state
and an EOF flag. -/
def sRead (st : RState) (n : Nat) : List Nat × RState × Bool :=
  if n = 0 then ([], st, false)
  else if st.buf = [] then
    if st.stream = [] then ([], st, true)
    else if bufferSize ≤ n then
      (st.stream.take n, ⟨[], st.stream.drop n⟩, false)
    else
      let buf := st.stream.take bufferSize
      (buf.take n, ⟨buf.drop n, st.stream.drop bufferSize⟩, false)
  else
    (st.buf.take n, ⟨st.buf.drop n, st.stream⟩, false)

/-- The body of the `for` loop in `read`, with explicit fuel.  Each
iteration issues a 4-byte read into the persistent `lengthBytes` buffer
(a short read leaves the tail of the previous header in place), exits
when the read returns no bytes, decodes the header in native byte order,
records the oversize warning `Error.Printf` would log, reads the content
region with a single `s.Read` into a zero-initialised slice of the
declared length, and dispatches the slice through `parseMessage`.
Returns the bytes written to stdout and the list of oversize lengths
that were warned about. -/
def readLoop (e : Endian) :
    Nat → RState → List Nat → List Nat → List Nat → List Nat × List Nat
  | 0, _, _, out, warns => (out, warns)
  | fuel + 1, st, lengthBytes, out, warns =>
    match sRead st 4 with
    | (bs, st₁, _) =>
      if bs = [] then (out, warns)
      else
        let lengthBytes₁ := bs ++ lengthBytes.drop bs.length
        let lengthNum := readMessageLength e lengthBytes₁
        let warns₁ :=
          if bufferSize < lengthNum then warns ++ [lengthNum] else warns
        match sRead st₁ lengthNum with
        | (content₀, st₂, _) =>
          let content := content₀ ++ List.replicate (lengthNum - content₀.length) 0
          readLoop e fuel st₂ lengthBytes₁ (out ++ parseMessage e content) warns₁

/-- `read` from main.go, run over a complete stdin byte sequence: the
loop starts with an empty reader buffer and a zeroed 4-byte
`lengthBytes` slice, and the fuel exceeds the input length, so the loop
always exits through its EOF condition, never by exhausting fuel. -/
def read (e : Endian) (input : List Nat) : List Nat × List Nat :=
  readLoop e (input.length + 1) ⟨[], input⟩ (List.replicate 4 0) [] []

/-- A well-formed wire frame: 4-byte native-endian length header
followed by exactly that many payload bytes. -/
def mkFrame (e : Endian) (payload : List Nat) : List Nat :=
  putUint32 e payload.length ++ payload

/-- The JSON envelope `{"query":"<q>"}` for a plain (escape-free) query. -/
def envQuery (q : List Nat) : List Nat :=
  [123] ++ strBytes "\"query\":" ++ [34] ++ q ++ [34] ++ [125]

/-! ## Helper lemmas -/

theorem putUint32_length (e : Endian) (n : Nat) : (putUint32 e n).length = 4 := by
  cases e <;> simp [putUint32, uint32Bytes]

theorem putUint32_ne_nil (e : Endian) (n : Nat) : putUint32 e n ≠ [] := by
  cases e <;> simp [putUint32, uint32Bytes]

theorem getUint32_putUint32 (e : Endian) (n : Nat) (h : n < 2 ^ 32) :
    getUint32 e (putUint32 e n) = n := by
  cases e <;> simp [putUint32, getUint32, uint32Bytes] <;> omega

theorem sRead_buffered (buf stream : List Nat) (n : Nat) (hn : n ≠ 0) (hb : buf ≠ []) :
    sRead ⟨buf, stream⟩ n = (buf.take n, ⟨buf.drop n, stream⟩, false) := by
  simp [sRead, hn, hb]

theorem sRead_fill (stream : List Nat) (n : Nat) (hn : n ≠ 0) (hs : stream ≠ [])
    (hlt : n < bufferSize) :
    sRead ⟨[], stream⟩ n
      = ((stream.take bufferSize).take n,
         ⟨(stream.take bufferSize).drop n, stream.drop bufferSize⟩, false) := by
  simp [sRead, hn, hs, Nat.not_le.mpr hlt]

/-! ## Claim theorems -/

/-- C1: for every `n` in `[0, 2^32-1]`, decoding the 4-byte length
encoding of `n` (in the byte order written by `writeMessageLength` and
read by `readMessageLength`) yields `n` back; in particular
`writeMessageLength` on a message of length `n` round-trips to `n`. -/
theorem length_header_roundtrip (e : Endian) (n : Nat) (h : n < 2 ^ 32) :
    readMessageLength e (putUint32 e n) = n ∧
    ∀ msg : List Nat, msg.length = n →
      readMessageLength e (writeMessageLength e msg) = n := by
  refine ⟨getUint32_putUint32 e n h, ?_⟩
  intro msg hm
  unfold writeMessageLength readMessageLength
  rw [hm]
  exact getUint32_putUint32 e n h

/-- Witness for C1 at `n = 9` with a 9-byte message, in both byte
orders. -/
theorem length_header_roundtrip_witness :
    (9 < 2 ^ 32 ∧ (List.replicate 9 7).length = 9) ∧
    readMessageLength .little (putUint32 .little 9) = 9 ∧
    readMessageLength .big (writeMessageLength .big (List.replicate 9 7)) = 9 :=
  ⟨⟨by decide, by decide⟩,
   (length_header_roundtrip .little 9 (by decide)).1,
   (length_header_roundtrip .big 9 (by decide)).2 (List.replicate 9 7) (by decide)⟩

/-- C2: every frame written by `send` carries a 4-byte length header
that decodes exactly to the byte length of the JSON payload following
it. -/
theorem send_header_matches_payload (e : Endian) (msg : OutgoingMessage)
    (h : (msgTextToBytes msg.response).length < 2 ^ 32) :
    readMessageLength e ((send e msg).take 4) = ((send e msg).drop 4).length := by
  have hsend : send e msg
      = putUint32 e (msgTextToBytes msg.response).length ++ msgTextToBytes msg.response := rfl
  have h4 : (putUint32 e (msgTextToBytes msg.response).length).length = 4 :=
    putUint32_length e _
  rw [hsend,
      show (4 : Nat) = (putUint32 e (msgTextToBytes msg.response).length).length from h4.symm,
      List.take_left, List.drop_left]
  exact getUint32_putUint32 e _ h

/-- Witness for C2 with the message `⟨"hello", "goodbye"⟩` in little
endian. -/
theorem send_header_matches_payload_witness :
    (msgTextToBytes (strBytes "goodbye")).length < 2 ^ 32 ∧
    readMessageLength .little
        ((send .little ⟨strBytes "hello", strBytes "goodbye"⟩).take 4)
      = ((send .little ⟨strBytes "hello", strBytes "goodbye"⟩).drop 4).length :=
  ⟨by decide,
   send_header_matches_payload .little ⟨strBytes "hello", strBytes "goodbye"⟩ (by decide)⟩

/-- C3: the query → response mapping of the stdio dispatch path is the
total pure function `queryResponse`: `"ping" → "pong"`,
`"hello" → "goodbye"`, and every other query, the empty string
included, maps to `"42"`; `parseMessage` dispatches through it. -/
theorem query_mapping_total (e : Endian) (msg : List Nat) :
    queryResponse (strBytes "ping") = strBytes "pong" ∧
    queryResponse (strBytes "hello") = strBytes "goodbye" ∧
    queryResponse (strBytes "") = strBytes "42" ∧
    (∀ q : List Nat, q ≠ strBytes "ping" → q ≠ strBytes "hello" →
      queryResponse q = strBytes "42") ∧
    parseMessage e msg =
      send e { query := (decodeMessage msg).query,
               response := queryResponse (decodeMessage msg).query } := by
  refine ⟨by decide, by decide, by decide, ?_, rfl⟩
  intro q h₁ h₂
  unfold queryResponse
  rw [if_neg h₁, if_neg h₂]

/-- Witness for C3 at query `"zzz"`. -/
theorem query_mapping_total_witness :
    (strBytes "zzz" ≠ strBytes "ping" ∧ strBytes "zzz" ≠ strBytes "hello") ∧
    queryResponse (strBytes "zzz") = strBytes "42" :=
  ⟨⟨by decide, by decide⟩,
   (query_mapping_total .little []).2.2.2.1 (strBytes "zzz") (by decide) (by decide)⟩

/-- C4: a payload that is not valid JSON for the `{query}` envelope
never faults: `decodeMessage` returns the zero-valued struct (empty
query) and `parseMessage` sends the default response `"42"`. -/
theorem invalid_json_degrades (e : Endian) (msg : List Nat)
    (h : parseEnvelope msg = none) :
    decodeMessage msg = { query := [] } ∧
    parseMessage e msg = send e { query := [], response := strBytes "42" } := by
  have hd : decodeMessage msg = { query := [] } := by
    unfold decodeMessage
    rw [h]
  refine ⟨hd, ?_⟩
  unfold parseMessage
  rw [hd]
  show send e { query := [], response := queryResponse [] } = _
  have : queryResponse ([] : List Nat) = strBytes "42" := by decide
  rw [this]

/-- Witness for C4 on the single-byte payload `[0]`. -/
theorem invalid_json_degrades_witness :
    parseEnvelope [0] = none ∧
    parseMessage .little [0] = send .little { query := [], response := strBytes "42" } :=
  ⟨by decide, (invalid_json_degrades .little [0] (by decide)).2⟩

/-- C5: the payload of every frame built by `send` is the JSON encoding
of the response string alone: it is independent of the query field, and
it is never the `dataToBytes` encoding of the full
`{query, response}` envelope. -/
theorem send_payload_response_only (e : Endian) (msg : OutgoingMessage) :
    (send e msg).drop 4 = jsonEncodeString msg.response ∧
    (∀ q : List Nat, send e { msg with query := q } = send e msg) ∧
    (send e msg).drop 4 ≠ dataToBytes msg := by
  have hdrop : (send e msg).drop 4 = jsonEncodeString msg.response := by
    have hsend : send e msg
        = putUint32 e (msgTextToBytes msg.response).length ++ msgTextToBytes msg.response := rfl
    have h4 : (putUint32 e (msgTextToBytes msg.response).length).length = 4 :=
      putUint32_length e _
    rw [hsend,
        show (4 : Nat) = (putUint32 e (msgTextToBytes msg.response).length).length from h4.symm,
        List.drop_left]
    rfl
  refine ⟨hdrop, fun q => rfl, ?_⟩
  rw [hdrop]
  intro hcontra
  have hhead := congrArg (fun l : List Nat => l.headI) hcontra
  simp [jsonEncodeString, dataToBytes] at hhead

/-- C7: `POST /action` with a non-empty body echoes the body verbatim as
both query and response through the same `send` path (the ping/hello
mapping is not applied); an empty body writes nothing. -/
theorem action_endpoint_echo (e : Endian) (body : List Nat) (h : body ≠ []) :
    actionEndpoint e [] = [] ∧
    actionEndpoint e body = send e { query := body, response := body } ∧
    actionEndpoint e (strBytes "ping")
      ≠ send e { query := strBytes "ping",
                 response := queryResponse (strBytes "ping") } := by
  refine ⟨rfl, ?_, ?_⟩
  · unfold actionEndpoint performAction
    rw [if_neg h]
  · cases e <;> decide

/-- Witness for C7 with body `"ping"`. -/
theorem action_endpoint_echo_witness :
    strBytes "ping" ≠ [] ∧
    actionEndpoint .little (strBytes "ping")
      = send .little { query := strBytes "ping", response := strBytes "ping" } :=
  ⟨by decide, (action_endpoint_echo .little (strBytes "ping") (by decide)).2.1⟩

/-- C6: a stream holding exactly the two well-formed frames
`{"query":"hello"}` and `{"query":"zzz"}` makes the stdio loop write
exactly the two frames whose payloads are the JSON strings
`"goodbye"` and `"42"`, each with a header equal to its payload length
(`mkFrame`), with no warnings, and the loop exits on end of stream. -/
theorem stdio_end_to_end :
    ∀ e : Endian,
      read e (mkFrame e (envQuery (strBytes "hello")) ++ mkFrame e (envQuery (strBytes "zzz")))
        = (mkFrame e (strBytes "\"goodbye\"") ++ mkFrame e (strBytes "\"42\""), []) := by
  intro e
  cases e <;> rfl

/-- C8 counterexample: on the 3-byte stream `[1, 0, 0]` the loop does
not terminate cleanly without output — the 3 bytes are combined with
the zero-initialised tail of `lengthBytes`, decoded as length 1, and a
whole default frame is produced. -/
theorem partial_header_decoded :
    (read Endian.little [1, 0, 0]).1 ≠ [] ∧
    read Endian.little [1, 0, 0] = (mkFrame Endian.little (strBytes "\"42\""), []) := by
  decide

/-- C8 amended: the loop terminates cleanly only when the header read
returns zero bytes (stream already exhausted); when 1–3 trailing bytes
remain they are merged with the previous contents of the persistent
header buffer (initially zeros) and decoded as a length, and a frame is
still dispatched. -/
theorem header_read_termination :
    (∀ e : Endian, read e [] = ([], [])) ∧
    readMessageLength Endian.little [1, 0, 0, 0] = 1 ∧
    read Endian.little [1, 0, 0] = (mkFrame Endian.little (strBytes "\"42\""), []) := by
  refine ⟨fun e => ?_, by decide, by decide⟩
  cases e <;> rfl

/-- C9 counterexample: for the frame at the head of the stream declaring
8193 content bytes (all present), the header read leaves 8188 payload
bytes buffered and 5 on the stream; the decoded length 8193 exceeds
`bufferSize`, and the single content-region read then returns the 8188
buffered bytes — not the 8192 the claim states — leaving 5 bytes (not
the claim's 8193 − 8192 = 1) unconsumed. -/
theorem oversize_read_counterexample :
    sRead ⟨[], putUint32 Endian.little 8193 ++ List.replicate 8193 7⟩ 4
      = (putUint32 Endian.little 8193,
         ⟨List.replicate 8188 7, List.replicate 5 7⟩, false) ∧
    readMessageLength Endian.little (putUint32 Endian.little 8193) = 8193 ∧
    bufferSize < 8193 ∧
    sRead ⟨List.replicate 8188 7, List.replicate 5 7⟩ 8193
      = (List.replicate 8188 7, ⟨[], List.replicate 5 7⟩, false) ∧
    (List.replicate 8188 7).length ≠ bufferSize ∧
    (List.replicate 5 7).length ≠ 8193 - bufferSize := by
  have hput : (putUint32 Endian.little 8193).length = 4 := putUint32_length _ _
  have hrepnil : List.replicate 8188 (7 : Nat) ≠ [] := by
    intro h
    have := congrArg List.length h
    simp only [List.length_replicate, List.length_nil] at this
    exact absurd this (by decide)
  have hreplen : (List.replicate 8188 (7 : Nat)).length ≤ 8193 := by
    rw [List.length_replicate]
    decide
  refine ⟨?_, by decide, by decide, ?_,
    by rw [List.length_replicate]; decide, by rw [List.length_replicate]; decide⟩
  · rw [sRead_fill _ 4 (by decide)
      (fun h => putUint32_ne_nil _ _ (List.append_eq_nil.mp h).1) (by decide)]
    have ht4 : (putUint32 Endian.little 8193 ++ List.replicate 8193 7).take 4
        = putUint32 Endian.little 8193 := by
      rw [← hput]
      exact List.take_left _ _
    have hd4 : (putUint32 Endian.little 8193 ++ List.replicate 8193 7).drop 4
        = List.replicate 8193 7 := by
      rw [← hput]
      exact List.drop_left _ _
    have e3 : (putUint32 Endian.little 8193 ++ List.replicate 8193 7).drop bufferSize
        = (List.replicate 8193 7).drop (bufferSize - 4) := by
      have hdd := List.drop_drop (bufferSize - 4) 4
        (putUint32 Endian.little 8193 ++ List.replicate 8193 7)
      rw [hd4] at hdd
      rw [hdd]
      congr 1
    rw [List.take_take, show min 4 bufferSize = 4 from by decide, ht4,
        List.drop_take, hd4, e3,
        List.take_replicate, List.drop_replicate]
    congr 2
  · rw [sRead_buffered _ _ 8193 (by decide) hrepnil]
    rw [List.take_of_length_le hreplen, List.drop_eq_nil_of_le hreplen]

/-- C9 amended: a frame at the head of the stream whose declared length
`L` exceeds `bufferSize` (with its content fully present) makes the loop
record the oversize warning, but its single content read returns only
the `bufferSize - 4 = 8188` bytes left in the buffer by the fill that
produced the header; the content slice is padded with zeros to length
`L` and the remaining `L - 8188` declared bytes stay unconsumed on the
stream. -/
theorem oversize_frame_truncated (e : Endian) (L fuel : Nat)
    (payload lb out warns : List Nat)
    (hlen : payload.length = L) (hbig : bufferSize < L) (h32 : L < 2 ^ 32)
    (hlb : lb.length = 4) :
    readLoop e (fuel + 1) ⟨[], putUint32 e L ++ payload⟩ lb out warns
      = readLoop e fuel ⟨[], payload.drop (bufferSize - 4)⟩ (putUint32 e L)
          (out ++ parseMessage e
            (payload.take (bufferSize - 4) ++ List.replicate (L - (bufferSize - 4)) 0))
          (warns ++ [L]) := by
  have hbs : bufferSize = 8192 := by decide
  have hpnil : payload ≠ [] := by
    intro h
    rw [h] at hlen
    simp at hlen
    omega
  have h4 : (putUint32 e L).length = 4 := putUint32_length e L
  have ht4 : (putUint32 e L ++ payload).take 4 = putUint32 e L := by
    rw [← h4]
    exact List.take_left _ _
  have hd4 : (putUint32 e L ++ payload).drop 4 = payload := by
    rw [← h4]
    exact List.drop_left _ _
  have e1 : ((putUint32 e L ++ payload).take bufferSize).take 4 = putUint32 e L := by
    rw [List.take_take, show min 4 bufferSize = 4 from by decide, ht4]
  have e2 : ((putUint32 e L ++ payload).take bufferSize).drop 4
      = payload.take (bufferSize - 4) := by
    rw [List.drop_take, hd4]
  have e3 : (putUint32 e L ++ payload).drop bufferSize
      = payload.drop (bufferSize - 4) := by
    calc (putUint32 e L ++ payload).drop bufferSize
        = (putUint32 e L ++ payload).drop ((putUint32 e L).length + (bufferSize - 4)) := by
          rw [h4]
          congr 1
      _ = payload.drop (bufferSize - 4) := by simp [List.drop_append]
  have h1 : sRead ⟨[], putUint32 e L ++ payload⟩ 4
      = (putUint32 e L,
         ⟨payload.take (bufferSize - 4), payload.drop (bufferSize - 4)⟩, false) := by
    rw [sRead_fill _ 4 (by decide) (by simp [putUint32_ne_nil e L]) (by decide), e1, e2, e3]
  have hL0 : L ≠ 0 := by omega
  have hctlen : (payload.take (bufferSize - 4)).length = bufferSize - 4 := by
    simp [List.length_take, hlen]
    omega
  have htknil : payload.take (bufferSize - 4) ≠ [] := by
    intro h
    rw [h] at hctlen
    simp at hctlen
    omega
  have h2 : sRead ⟨payload.take (bufferSize - 4), payload.drop (bufferSize - 4)⟩ L
      = (payload.take (bufferSize - 4), ⟨[], payload.drop (bufferSize - 4)⟩, false) := by
    rw [sRead_buffered _ _ L hL0 htknil]
    rw [List.take_of_length_le (by omega : (payload.take (bufferSize - 4)).length ≤ L)]
    rw [List.drop_eq_nil_of_le (by omega : (payload.take (bufferSize - 4)).length ≤ L)]
  have hlbd : lb.drop 4 = [] := List.drop_eq_nil_of_le (by omega)
  have hrml : readMessageLength e (putUint32 e L) = L := getUint32_putUint32 e L h32
  simp only [readLoop, h1, h2]
  simp only [putUint32_ne_nil e L, if_false, h4, hlbd, List.append_nil, hrml, if_pos hbig,
    hctlen]
  rw [h2]
  simp only [hctlen]

/-- Witness for the amended C9 at `L = 8193` with an all-sevens
payload. -/
theorem oversize_frame_truncated_witness :
    ((List.replicate 8193 7).length = 8193 ∧ bufferSize < 8193 ∧ 8193 < 2 ^ 32 ∧
      (List.replicate 4 0).length = 4) ∧
    readLoop Endian.little 1
        ⟨[], putUint32 Endian.little 8193 ++ List.replicate 8193 7⟩
        (List.replicate 4 0) [] []
      = readLoop Endian.little 0
          ⟨[], (List.replicate 8193 7).drop (bufferSize - 4)⟩
          (putUint32 Endian.little 8193)
          ([] ++ parseMessage Endian.little
            ((List.replicate 8193 7).take (bufferSize - 4)
              ++ List.replicate (8193 - (bufferSize - 4)) 0))
          ([] ++ [8193]) :=
  ⟨⟨by rw [List.length_replicate], by decide, by decide, by decide⟩,
   oversize_frame_truncated Endian.little 8193 0 (List.replicate 8193 7)
     (List.replicate 4 0) [] [] (by rw [List.length_replicate]) (by decide) (by decide)
     (by decide)⟩

/-- C10: marshalling a response string never fails (`jsonMarshalString`
always succeeds), so `msgTextToBytes` always returns the JSON encoding
and every `send` writes a complete frame: 4 header bytes followed by the
whole encoded payload. -/
theorem marshal_never_fails (s : List Nat) :
    (jsonMarshalString s).isSome = true ∧
    msgTextToBytes s = jsonEncodeString s ∧
    ∀ (e : Endian) (q : List Nat),
      send e { query := q, response := s }
        = putUint32 e (jsonEncodeString s).length ++ jsonEncodeString s := by
  exact ⟨rfl, rfl, fun e q => rfl⟩

end XCloud
